import Mathlib

set_option maxRecDepth 100000

/-!
Verification of the anchor-based manifest patcher in
`OralableApp/add_file_to_project.py`.

The script has two parts:

* `generate_uuid` : returns `''.join(str(uuid.uuid4()).replace('-', ''))[:24].upper()`,
  a 24-character uppercase-hex identifier derived from a random UUID string.
* `add_file_to_project` : reads the project manifest, and performs four
  find-and-insert sub-steps on the text, each one a `re.search` for an anchor
  pattern followed by splicing a generated line at the match end
  (`content[:insert_pos] + entry + content[insert_pos:]` with
  `insert_pos = match.end()`); a sub-step whose search fails is skipped.

Text is modelled as `List Char`.  The four anchor patterns use only two
regex constructs: literal runs and the greedy one-or-more character class
`[^}]+`.  `matchPats` below reproduces Python's backtracking semantics for
exactly this fragment (greedy: longest repetition first, then backtrack),
and `searchEnd` reproduces `re.search` (leftmost starting position wins)
returning the end offset of the match, i.e. `match.end()`.
-/

/-- The two regex constructs appearing in the script's four patterns:
a literal character run, and `[^}]+` (one or more characters other than
a closing brace, matched greedily). -/
inductive Pat where
  | lit (cs : List Char) : Pat
  | star : Pat
deriving Repr

/-- Length of the maximal prefix free of closing braces: the most that
`[^}]+` could possibly consume at this position. -/
def nonBraceRun (s : List Char) : Nat :=
  (s.takeWhile (fun c => c ≠ '\x7d')).length

/-- Backtracking loop for `[^}]+`: try consuming `n` characters (longest
first, mirroring greedy matching), retrying with one fewer on failure of
the rest of the pattern.  `f` matches the remaining pattern. -/
def tryStar (f : List Char → Option Nat) (s : List Char) : Nat → Option Nat
  | 0 => none
  | n + 1 =>
    match f (s.drop (n + 1)) with
    | some k => some (n + 1 + k)
    | none => tryStar f s n

/-- Match a pattern sequence against a prefix of `s`, returning the number
of characters consumed.  Reproduces Python's backtracking regex semantics
for this pattern fragment (literals must match exactly; `[^}]+` is greedy
with backtracking). -/
def matchPats : List Pat → List Char → Option Nat
  | [], _ => some 0
  | Pat.lit cs :: ps, s =>
    if cs.isPrefixOf s then
      (matchPats ps (s.drop cs.length)).map (fun k => cs.length + k)
    else none
  | Pat.star :: ps, s => tryStar (matchPats ps) s (nonBraceRun s)

/-- Scan of `re.search`: try to match at each successive position
(leftmost position wins); on success return `i + k` where `i` is the start
index and `k` the consumed length, i.e. the match end offset. -/
def searchAux (pats : List Pat) : List Char → Nat → Option Nat
  | [], i =>
    match matchPats pats [] with
    | some k => some (i + k)
    | none => none
  | c :: t, i =>
    match matchPats pats (c :: t) with
    | some k => some (i + k)
    | none => searchAux pats t (i + 1)

/-- `re.search(pattern, s)` returning `match.end()` when a match exists. -/
def searchEnd (pats : List Pat) (s : List Char) : Option Nat :=
  searchAux pats s 0

/-- One find-and-insert sub-step of the script: search for the anchor
pattern; if found, splice `entry` immediately after the match end
(`content[:insert_pos] + entry + content[insert_pos:]`), otherwise leave
the text unchanged. -/
def applyStep (pats : List Pat) (entry : List Char) (s : List Char) : List Char :=
  match searchEnd pats s with
  | some e => s.take e ++ entry ++ s.drop e
  | none => s

/-- The logical file being registered: name and project-relative path
(`file_name` and `file_path` in the script). -/
structure FileDescriptor where
  name : List Char
  path : List Char

/-- `build_file_entry`:
`\t\t{build_file_uuid} /* {file_name} in Sources */ = {isa = PBXBuildFile; fileRef = {file_ref_uuid} /* {file_name} */; };\n`. -/
def buildFileEntry (name refId buildId : List Char) : List Char :=
  ("\t\t").toList ++ buildId ++ (" /* ").toList ++ name ++
    (" in Sources */ = \x7bisa = PBXBuildFile; fileRef = ").toList ++ refId ++
    (" /* ").toList ++ name ++ (" */; \x7d;\n").toList

/-- `file_ref_entry`:
`\t\t{file_ref_uuid} /* {file_name} */ = {isa = PBXFileReference; lastKnownFileType = sourcecode.swift; path = {file_name}; sourceTree = "<group>"; };\n`. -/
def fileRefEntry (name refId : List Char) : List Char :=
  ("\t\t").toList ++ refId ++ (" /* ").toList ++ name ++
    (" */ = \x7bisa = PBXFileReference; lastKnownFileType = sourcecode.swift; path = ").toList ++
    name ++ ("; sourceTree = \"<group>\"; \x7d;\n").toList

/-- `group_entry`: `\t\t\t\t{file_ref_uuid} /* {file_name} */,\n`. -/
def groupEntry (name refId : List Char) : List Char :=
  ("\t\t\t\t").toList ++ refId ++ (" /* ").toList ++ name ++ (" */,\n").toList

/-- `sources_entry`: `\t\t\t\t{build_file_uuid} /* {file_name} in Sources */,\n`. -/
def sourcesEntry (name buildId : List Char) : List Char :=
  ("\t\t\t\t").toList ++ buildId ++ (" /* ").toList ++ name ++
    (" in Sources */,\n").toList

/-- Anchor 1, `r'(/\* Begin PBXBuildFile section \*/\n)'`: a pure literal. -/
def buildFilePats : List Pat :=
  [Pat.lit ("/* Begin PBXBuildFile section */\n").toList]

/-- Anchor 2, `r'(/\* Begin PBXFileReference section \*/\n)'`: a pure literal. -/
def fileRefPats : List Pat :=
  [Pat.lit ("/* Begin PBXFileReference section */\n").toList]

/-- Anchor 3, `r'(/\* Views \*/ = {[^}]+children = \(\n)'`. -/
def viewsPats : List Pat :=
  [Pat.lit ("/* Views */ = \x7b").toList, Pat.star,
   Pat.lit ("children = (\n").toList]

/-- Anchor 4, `r'(/\* Sources \*/ = {[^}]+isa = PBXSourcesBuildPhase;[^}]+files = \(\n)'`. -/
def sourcesPats : List Pat :=
  [Pat.lit ("/* Sources */ = \x7b").toList, Pat.star,
   Pat.lit ("isa = PBXSourcesBuildPhase;").toList, Pat.star,
   Pat.lit ("files = (\n").toList]

/-- Sub-step 1: add the PBXBuildFile entry after the build-file section marker. -/
def stepBuildFile (name refId buildId s : List Char) : List Char :=
  applyStep buildFilePats (buildFileEntry name refId buildId) s

/-- Sub-step 2: add the PBXFileReference entry after the file-reference section marker. -/
def stepFileRef (name refId s : List Char) : List Char :=
  applyStep fileRefPats (fileRefEntry name refId) s

/-- Sub-step 3: add the child entry after the Views group's `children = (` opener. -/
def stepGroup (name refId s : List Char) : List Char :=
  applyStep viewsPats (groupEntry name refId) s

/-- Sub-step 4: add the build-phase entry after the sources build phase's
`files = (` opener. -/
def stepSources (name buildId s : List Char) : List Char :=
  applyStep sourcesPats (sourcesEntry name buildId) s

/-- The whole patching pass of `add_file_to_project` on an in-memory
manifest: the four sub-steps applied in program order, each one consuming
the text as mutated by the previous one.  The descriptor's `path`
(`file_path` in the script) is never used by any sub-step. -/
def patch (d : FileDescriptor) (refId buildId : List Char) (s : List Char) : List Char :=
  stepSources d.name buildId
    (stepGroup d.name refId
      (stepFileRef d.name refId
        (stepBuildFile d.name refId buildId s)))

/-- The sub-steps indexed in program order: 0 = build-file, 1 = file-reference,
2 = group, 3 = sources build phase.  Out-of-range indices do nothing. -/
def stepAt (d : FileDescriptor) (refId buildId : List Char) : Nat → List Char → List Char
  | 0, s => stepBuildFile d.name refId buildId s
  | 1, s => stepFileRef d.name refId s
  | 2, s => stepGroup d.name refId s
  | 3, s => stepSources d.name buildId s
  | _, s => s

/-- Run the four sub-steps in a chosen order, each one consuming the text
produced by the previous one. -/
def applyOrder (d : FileDescriptor) (refId buildId : List Char)
    (ord : List Nat) (s : List Char) : List Char :=
  ord.foldl (fun t i => stepAt d refId buildId i t) s

/-- `generate_uuid`, as a function of the textual form of the random UUID
(`str(uuid.uuid4())`, hyphen-separated lowercase hex):
`''.join(str(uuid.uuid4()).replace('-', ''))[:24].upper()`. -/
def generateUuid (u : List Char) : List Char :=
  ((u.filter (fun c => c ≠ '-')).take 24).map Char.toUpper

/-- The sixteen lowercase hexadecimal digits, the alphabet of
`str(uuid.uuid4())` apart from hyphens. -/
def lowerHexDigits : List Char := ("0123456789abcdef").toList

/-- The sixteen uppercase hexadecimal digits. -/
def upperHexDigits : List Char := ("0123456789ABCDEF").toList

/-- What the textual form of a version-4 UUID guarantees: every character
is a hyphen or a lowercase hex digit, and there are exactly 32 hex digits. -/
def IsUuidRepr (u : List Char) : Prop :=
  (u.filter (fun c => c ≠ '-')).length = 32 ∧
    ∀ c ∈ u, c = '-' ∨ c ∈ lowerHexDigits

/-- `t` is `s` with `line` spliced in at a single position: all of `s` is
preserved byte-for-byte around the one insertion. -/
def InsertedAt (s t line : List Char) : Prop :=
  ∃ i, i ≤ s.length ∧ t = s.take i ++ line ++ s.drop i

/-- `t` is the result of successively splicing each line of `ls` into `s`,
one pure insertion per line. -/
def InsChain : List (List Char) → List Char → List Char → Prop
  | [], s, t => t = s
  | l :: ls, s, t => ∃ u, InsertedAt s u l ∧ InsChain ls u t

/-- Descriptor used in the concrete scenarios: `Foo.swift` at `A/Foo.swift`. -/
def fooDesc : FileDescriptor :=
  ⟨("Foo.swift").toList, ("A/Foo.swift").toList⟩

/-- File-reference identifier used in the concrete scenarios. -/
def idA : List Char := ("AAAAAAAAAAAAAAAAAAAAAAAA").toList

/-- Build-file identifier used in the concrete scenarios. -/
def idB : List Char := ("BBBBBBBBBBBBBBBBBBBBBBBB").toList

/-- A small well-formed manifest: all four sections present, disjoint and
in the usual layout. -/
def mGood : List Char :=
  ("// !$*UTF8*$!\n/* Begin PBXBuildFile section */\n/* End PBXBuildFile section */\n/* Begin PBXFileReference section */\n/* End PBXFileReference section */\n\t\tAB12 /* Views */ = \x7b\n\t\t\tisa = PBXGroup;\n\t\t\tchildren = (\n\t\t\t);\n\t\t\x7d;\n\t\tCD34 /* Sources */ = \x7b\n\t\t\tisa = PBXSourcesBuildPhase;\n\t\t\tfiles = (\n\t\t\t);\n\t\t\x7d;\n").toList

/-- A manifest that contains all four anchors, but whose build-file marker
sits inside the Views group's brace-free span, so the build-file insertion
(whose entry contains a closing brace) breaks the group anchor before the
group sub-step runs. -/
def mOverlap : List Char :=
  ("/* Views */ = \x7b/* Begin PBXBuildFile section */\nchildren = (\n/* Begin PBXFileReference section */\n/* Sources */ = \x7bXisa = PBXSourcesBuildPhase;\nfiles = (\n").toList

/-- `mOverlap` with the file-reference marker removed: exactly one of the
four anchors is absent. -/
def mOverlapNoRef : List Char :=
  ("/* Views */ = \x7b/* Begin PBXBuildFile section */\nchildren = (\n/* Sources */ = \x7bXisa = PBXSourcesBuildPhase;\nfiles = (\n").toList

/-- The overlapping prefix alone: build-file marker inside the Views
group's span, used to show the sub-steps need not commute. -/
def mOrderSensitive : List Char :=
  ("/* Views */ = \x7b/* Begin PBXBuildFile section */\nchildren = (\n").toList

/-- A manifest whose build-file section is the empty section, and which
contains none of the other three anchors. -/
def mEmptyBuildFile : List Char :=
  ("/* Begin PBXBuildFile section */\n/* End PBXBuildFile section */\n").toList

/-- A manifest containing the build-file section marker twice. -/
def mDupMarker : List Char :=
  ("/* Begin PBXBuildFile section */\nX/* Begin PBXBuildFile section */\n").toList

/-- `mGood` without its Views group: the group anchor is the only one of
the four anchors that is absent. -/
def mNoViews : List Char :=
  ("// !$*UTF8*$!\n/* Begin PBXBuildFile section */\n/* End PBXBuildFile section */\n/* Begin PBXFileReference section */\n/* End PBXFileReference section */\n\t\tCD34 /* Sources */ = \x7b\n\t\t\tisa = PBXSourcesBuildPhase;\n\t\t\tfiles = (\n\t\t\t);\n\t\t\x7d;\n").toList

/-- A sample value for the textual form of a random version-4 UUID. -/
def uuidSample : List Char := ("123e4567-e89b-42d3-a456-426614174000").toList

/-- All 24 orders in which the four sub-steps can be applied. -/
def allOrders : List (List Nat) :=
  [[0, 1, 2, 3], [0, 1, 3, 2], [0, 2, 1, 3], [0, 2, 3, 1], [0, 3, 1, 2], [0, 3, 2, 1],
   [1, 0, 2, 3], [1, 0, 3, 2], [1, 2, 0, 3], [1, 2, 3, 0], [1, 3, 0, 2], [1, 3, 2, 0],
   [2, 0, 1, 3], [2, 0, 3, 1], [2, 1, 0, 3], [2, 1, 3, 0], [2, 3, 0, 1], [2, 3, 1, 0],
   [3, 0, 1, 2], [3, 0, 2, 1], [3, 1, 0, 2], [3, 1, 2, 0], [3, 2, 0, 1], [3, 2, 1, 0]]

/-- The line inserted by sub-step `j` (program order). -/
def stageEntry (d : FileDescriptor) (refId buildId : List Char) : Nat → List Char
  | 0 => buildFileEntry d.name refId buildId
  | 1 => fileRefEntry d.name refId
  | 2 => groupEntry d.name refId
  | 3 => sourcesEntry d.name buildId
  | _ => []

/-- The anchor pattern searched by sub-step `j` (program order). -/
def stagePats : Nat → List Pat
  | 0 => buildFilePats
  | 1 => fileRefPats
  | 2 => viewsPats
  | _ => sourcesPats

/-- The manifest text as sub-step `j` sees it: the input already mutated by
the previous sub-steps. -/
def stageText (d : FileDescriptor) (refId buildId m : List Char) : Nat → List Char
  | 0 => m
  | 1 => stepBuildFile d.name refId buildId m
  | 2 => stepFileRef d.name refId (stepBuildFile d.name refId buildId m)
  | _ => stepGroup d.name refId
      (stepFileRef d.name refId (stepBuildFile d.name refId buildId m))

theorem tryStar_le (f : List Char → Option Nat)
    (hf : ∀ t k, f t = some k → k ≤ t.length) (s : List Char) :
    ∀ n k, n ≤ s.length → tryStar f s n = some k → k ≤ s.length := by
  intro n
  induction n with
  | zero => intro k _ h; simp [tryStar] at h
  | succ n ih =>
    intro k hn h
    cases hfv : f (s.drop (n + 1)) with
    | some k2 =>
      simp only [tryStar, hfv, Option.some.injEq] at h
      have h2 := hf _ _ hfv
      simp only [List.length_drop] at h2
      omega
    | none =>
      simp only [tryStar, hfv] at h
      exact ih k (by omega) h

theorem matchPats_le : ∀ (pats : List Pat) (s : List Char) (k : Nat),
    matchPats pats s = some k → k ≤ s.length := by
  intro pats
  induction pats with
  | nil =>
    intro s k h
    have h0 : (some 0 : Option Nat) = some k := h
    injection h0 with h1
    omega
  | cons p ps ih =>
    cases p with
    | lit cs =>
      intro s k h
      simp only [matchPats] at h
      by_cases hpre : cs.isPrefixOf s
      · rw [if_pos hpre] at h
        cases hm : matchPats ps (s.drop cs.length) with
        | none => rw [hm] at h; simp at h
        | some k2 =>
          rw [hm] at h
          have h0 : some (cs.length + k2) = some k := h
          injection h0 with h
          have h2 := ih _ _ hm
          have h3 : cs.length ≤ s.length :=
            (List.isPrefixOf_iff_prefix.mp hpre).length_le
          simp only [List.length_drop] at h2
          omega
      · rw [if_neg hpre] at h
        cases h
    | star =>
      intro s k h
      simp only [matchPats] at h
      refine tryStar_le _ (fun t k2 ht => ih t k2 ht) s _ k ?_ h
      exact (List.takeWhile_prefix _).length_le

theorem searchAux_spec (pats : List Pat) :
    ∀ (s : List Char) (i e : Nat), searchAux pats s i = some e →
      ∃ d k, d + k ≤ s.length ∧ matchPats pats (s.drop d) = some k ∧
        e = i + d + k ∧ ∀ d2 < d, matchPats pats (s.drop d2) = none := by
  intro s
  induction s with
  | nil =>
    intro i e h
    cases hm : matchPats pats [] with
    | none =>
      simp only [searchAux, hm] at h
      exact Option.noConfusion h
    | some k =>
      simp only [searchAux, hm, Option.some.injEq] at h
      have hk := matchPats_le pats [] k hm
      refine ⟨0, k, by simpa using hk, by simpa using hm, by omega, ?_⟩
      intro d2 hd2
      omega
  | cons c t ih =>
    intro i e h
    cases hm : matchPats pats (c :: t) with
    | some k =>
      simp only [searchAux, hm, Option.some.injEq] at h
      have hk := matchPats_le pats (c :: t) k hm
      refine ⟨0, k, by simpa using hk, by simpa using hm, by omega, ?_⟩
      intro d2 hd2
      omega
    | none =>
      simp only [searchAux, hm] at h
      obtain ⟨d, k, hdk, hmk, he, hmin⟩ := ih (i + 1) e h
      refine ⟨d + 1, k, ?_, ?_, ?_, ?_⟩
      · simp only [List.length_cons]; omega
      · simpa using hmk
      · omega
      · intro d2 hd2
        cases d2 with
        | zero => simpa using hm
        | succ d3 =>
          have := hmin d3 (by omega)
          simpa using this

theorem searchEnd_spec (pats : List Pat) (s : List Char) (e : Nat)
    (h : searchEnd pats s = some e) :
    ∃ d k, d + k ≤ s.length ∧ matchPats pats (s.drop d) = some k ∧
      e = d + k ∧ ∀ d2 < d, matchPats pats (s.drop d2) = none := by
  obtain ⟨d, k, hdk, hmk, he, hmin⟩ := searchAux_spec pats s 0 e h
  exact ⟨d, k, hdk, hmk, by omega, hmin⟩

theorem searchEnd_le (pats : List Pat) (s : List Char) (e : Nat)
    (h : searchEnd pats s = some e) : e ≤ s.length := by
  obtain ⟨d, k, hdk, _, he, _⟩ := searchEnd_spec pats s e h
  omega

theorem applyStep_of_found {pats : List Pat} {entry s : List Char} {e : Nat}
    (h : searchEnd pats s = some e) :
    applyStep pats entry s = s.take e ++ entry ++ s.drop e := by
  simp [applyStep, h]

theorem applyStep_of_not_found {pats : List Pat} {entry s : List Char}
    (h : searchEnd pats s = none) : applyStep pats entry s = s := by
  simp [applyStep, h]

theorem applyStep_length_of_found {pats : List Pat} {entry s : List Char} {e : Nat}
    (h : searchEnd pats s = some e) :
    (applyStep pats entry s).length = s.length + entry.length := by
  have he := searchEnd_le pats s e h
  rw [applyStep_of_found h]
  simp only [List.length_append, List.length_take, List.length_drop]
  omega

theorem insertedAt_applyStep {pats : List Pat} {entry s : List Char} {e : Nat}
    (h : searchEnd pats s = some e) :
    InsertedAt s (applyStep pats entry s) entry :=
  ⟨e, searchEnd_le pats s e h, by rw [applyStep_of_found h]⟩

theorem applyStep_length_ge (pats : List Pat) (entry s : List Char) :
    s.length ≤ (applyStep pats entry s).length := by
  cases h : searchEnd pats s with
  | none => rw [applyStep_of_not_found h]
  | some e => rw [applyStep_length_of_found h]; omega

theorem applyStep_cases (pats : List Pat) (entry s : List Char) :
    applyStep pats entry s = s ∨
      (applyStep pats entry s).length = s.length + entry.length := by
  cases h : searchEnd pats s with
  | none => exact Or.inl (applyStep_of_not_found h)
  | some e => exact Or.inr (applyStep_length_of_found h)

theorem insertedAt_length {s t line : List Char} (h : InsertedAt s t line) :
    t.length = s.length + line.length := by
  obtain ⟨i, hi, rfl⟩ := h
  simp only [List.length_append, List.length_take, List.length_drop]
  omega

theorem insChain_append {l1 l2 : List (List Char)} {s u t : List Char}
    (h1 : InsChain l1 s u) (h2 : InsChain l2 u t) : InsChain (l1 ++ l2) s t := by
  induction l1 generalizing s with
  | nil =>
    have hu : u = s := h1
    subst hu
    simpa using h2
  | cons l ls ih =>
    obtain ⟨v, hv, hc⟩ := h1
    exact ⟨v, hv, ih hc⟩

theorem buildFileEntry_length_pos (name refId buildId : List Char) :
    0 < (buildFileEntry name refId buildId).length := by
  simp [buildFileEntry]

theorem patch_insert_all (d : FileDescriptor) (refId buildId m : List Char)
    (h1 : (searchEnd buildFilePats m).isSome = true)
    (h2 : (searchEnd fileRefPats (stepBuildFile d.name refId buildId m)).isSome = true)
    (h3 : (searchEnd viewsPats
      (stepFileRef d.name refId (stepBuildFile d.name refId buildId m))).isSome = true)
    (h4 : (searchEnd sourcesPats (stepGroup d.name refId
      (stepFileRef d.name refId (stepBuildFile d.name refId buildId m)))).isSome = true) :
    InsChain [buildFileEntry d.name refId buildId, fileRefEntry d.name refId,
        groupEntry d.name refId, sourcesEntry d.name buildId] m (patch d refId buildId m) ∧
      (patch d refId buildId m).length = m.length +
        ((buildFileEntry d.name refId buildId).length + (fileRefEntry d.name refId).length +
          (groupEntry d.name refId).length + (sourcesEntry d.name buildId).length) := by
  obtain ⟨e1, he1⟩ := Option.isSome_iff_exists.mp h1
  obtain ⟨e2, he2⟩ := Option.isSome_iff_exists.mp h2
  obtain ⟨e3, he3⟩ := Option.isSome_iff_exists.mp h3
  obtain ⟨e4, he4⟩ := Option.isSome_iff_exists.mp h4
  constructor
  · refine ⟨stepBuildFile d.name refId buildId m, insertedAt_applyStep he1,
      stepFileRef d.name refId (stepBuildFile d.name refId buildId m),
      insertedAt_applyStep he2,
      stepGroup d.name refId (stepFileRef d.name refId (stepBuildFile d.name refId buildId m)),
      insertedAt_applyStep he3,
      patch d refId buildId m, insertedAt_applyStep he4, rfl⟩
  · have l1 : (stepBuildFile d.name refId buildId m).length =
        m.length + (buildFileEntry d.name refId buildId).length :=
      applyStep_length_of_found he1
    have l2 : (stepFileRef d.name refId (stepBuildFile d.name refId buildId m)).length =
        (stepBuildFile d.name refId buildId m).length + (fileRefEntry d.name refId).length :=
      applyStep_length_of_found he2
    have l3 : (stepGroup d.name refId (stepFileRef d.name refId
          (stepBuildFile d.name refId buildId m))).length =
        (stepFileRef d.name refId (stepBuildFile d.name refId buildId m)).length +
          (groupEntry d.name refId).length :=
      applyStep_length_of_found he3
    have l4 : (patch d refId buildId m).length =
        (stepGroup d.name refId (stepFileRef d.name refId
          (stepBuildFile d.name refId buildId m))).length +
          (sourcesEntry d.name buildId).length :=
      applyStep_length_of_found he4
    omega

/-- C1 counterexample: `mOverlap` contains all four anchor patterns, yet
`patch` does not perform four insertions — the build-file entry (which
contains a closing brace) lands inside the Views group's brace-free span
and destroys the group anchor before sub-step 3 runs, so only three lines
are inserted. -/
theorem patch_all_anchors_not_four_insertions :
    ((searchEnd buildFilePats mOverlap).isSome = true ∧
      (searchEnd fileRefPats mOverlap).isSome = true ∧
      (searchEnd viewsPats mOverlap).isSome = true ∧
      (searchEnd sourcesPats mOverlap).isSome = true) ∧
    (patch fooDesc idA idB mOverlap).length ≠ mOverlap.length +
      ((buildFileEntry fooDesc.name idA idB).length + (fileRefEntry fooDesc.name idA).length +
        (groupEntry fooDesc.name idA).length + (sourcesEntry fooDesc.name idB).length) ∧
    (patch fooDesc idA idB mOverlap).length = mOverlap.length +
      ((buildFileEntry fooDesc.name idA idB).length + (fileRefEntry fooDesc.name idA).length +
        (sourcesEntry fooDesc.name idB).length) := by
  decide

/-- C1 (amended): when each of the four sub-steps finds its anchor in the
text as already mutated by the previous sub-steps, `patch` is a chain of
exactly four pure insertions — one line per section, each built by the
corresponding entry format — and the total length grows by exactly the
four entry lengths, so all pre-existing text is preserved byte-for-byte
around the four splice points. -/
theorem patch_four_insertions_of_stage_found (d : FileDescriptor) (refId buildId m : List Char)
    (h1 : (searchEnd buildFilePats m).isSome = true)
    (h2 : (searchEnd fileRefPats (stepBuildFile d.name refId buildId m)).isSome = true)
    (h3 : (searchEnd viewsPats
      (stepFileRef d.name refId (stepBuildFile d.name refId buildId m))).isSome = true)
    (h4 : (searchEnd sourcesPats (stepGroup d.name refId
      (stepFileRef d.name refId (stepBuildFile d.name refId buildId m)))).isSome = true) :
    InsChain [buildFileEntry d.name refId buildId, fileRefEntry d.name refId,
        groupEntry d.name refId, sourcesEntry d.name buildId] m (patch d refId buildId m) ∧
      (patch d refId buildId m).length = m.length +
        ((buildFileEntry d.name refId buildId).length + (fileRefEntry d.name refId).length +
          (groupEntry d.name refId).length + (sourcesEntry d.name buildId).length) :=
  patch_insert_all d refId buildId m h1 h2 h3 h4

/-- C1 witness: on the well-formed manifest `mGood` all four stage
searches succeed and `patch` is the four-insertion chain. -/
theorem patch_four_insertions_of_stage_found_witness :
    InsChain [buildFileEntry fooDesc.name idA idB, fileRefEntry fooDesc.name idA,
        groupEntry fooDesc.name idA, sourcesEntry fooDesc.name idB] mGood
        (patch fooDesc idA idB mGood) ∧
      (patch fooDesc idA idB mGood).length = mGood.length +
        ((buildFileEntry fooDesc.name idA idB).length + (fileRefEntry fooDesc.name idA).length +
          (groupEntry fooDesc.name idA).length + (sourcesEntry fooDesc.name idB).length) :=
  patch_four_insertions_of_stage_found fooDesc idA idB mGood
    (by decide) (by decide) (by decide) (by decide)

/-- C4: on a manifest whose build-file section is the empty section, with
file `Foo.swift` and identifiers `AAAAAAAAAAAAAAAAAAAAAAAA` and
`BBBBBBBBBBBBBBBBBBBBBBBB`, the patched output's build-file section starts
with exactly the expected PBXBuildFile line immediately after the section
marker. -/
theorem patch_empty_build_file_section_scenario :
    patch fooDesc idA idB mEmptyBuildFile =
      ("/* Begin PBXBuildFile section */\n").toList ++
        ("\t\tBBBBBBBBBBBBBBBBBBBBBBBB /* Foo.swift in Sources */ = \x7bisa = PBXBuildFile; fileRef = AAAAAAAAAAAAAAAAAAAAAAAA /* Foo.swift */; \x7d;\n").toList ++
        ("/* End PBXBuildFile section */\n").toList := by
  decide

/-- C6: when a sub-step's anchor search succeeds with end offset `e`, that
offset is the position immediately after the full matched pattern text
(`e` decomposes as a match start plus the matched length), and the sub-step
splices the new line exactly there: text up to `e`, then the line, then
the rest. -/
theorem applyStep_splices_at_match_end (pats : List Pat) (entry s : List Char) (e : Nat)
    (h : searchEnd pats s = some e) :
    (∃ d k, matchPats pats (s.drop d) = some k ∧ e = d + k) ∧
      applyStep pats entry s = s.take e ++ entry ++ s.drop e := by
  obtain ⟨d, k, _, hmk, he, _⟩ := searchEnd_spec pats s e h
  exact ⟨⟨d, k, hmk, he⟩, applyStep_of_found h⟩

/-- C6 witness: the build-file marker is matched in `mEmptyBuildFile` with
end offset 33, and the entry is spliced right after it. -/
theorem applyStep_splices_at_match_end_witness :
    ((∃ d k, matchPats buildFilePats (mEmptyBuildFile.drop d) = some k ∧ 33 = d + k) ∧
      applyStep buildFilePats (buildFileEntry fooDesc.name idA idB) mEmptyBuildFile =
        mEmptyBuildFile.take 33 ++ buildFileEntry fooDesc.name idA idB ++
          mEmptyBuildFile.drop 33) :=
  applyStep_splices_at_match_end buildFilePats (buildFileEntry fooDesc.name idA idB)
    mEmptyBuildFile 33 (by decide)

/-- C7: the manifest only grows across the four chained sub-steps — each
sub-step consumes the text produced by the previous one (the stated
composition is the definition of `patch`), its output is never shorter
than its input, and each sub-step either leaves its input unchanged or
lengthens it by exactly its entry. -/
theorem patch_length_monotone_chained (d : FileDescriptor) (refId buildId m : List Char) :
    patch d refId buildId m =
      stepSources d.name buildId (stepGroup d.name refId
        (stepFileRef d.name refId (stepBuildFile d.name refId buildId m))) ∧
    m.length ≤ (stepBuildFile d.name refId buildId m).length ∧
    (stepBuildFile d.name refId buildId m).length ≤
      (stepFileRef d.name refId (stepBuildFile d.name refId buildId m)).length ∧
    (stepFileRef d.name refId (stepBuildFile d.name refId buildId m)).length ≤
      (stepGroup d.name refId
        (stepFileRef d.name refId (stepBuildFile d.name refId buildId m))).length ∧
    (stepGroup d.name refId
        (stepFileRef d.name refId (stepBuildFile d.name refId buildId m))).length ≤
      (patch d refId buildId m).length ∧
    ∀ j : Fin 4,
      applyStep (stagePats j) (stageEntry d refId buildId j)
          (stageText d refId buildId m j) = stageText d refId buildId m j ∨
        (applyStep (stagePats j) (stageEntry d refId buildId j)
            (stageText d refId buildId m j)).length =
          (stageText d refId buildId m j).length + (stageEntry d refId buildId j).length := by
  refine ⟨rfl, ?_, ?_, ?_, ?_, ?_⟩
  · exact applyStep_length_ge _ _ _
  · exact applyStep_length_ge _ _ _
  · exact applyStep_length_ge _ _ _
  · exact applyStep_length_ge _ _ _
  · intro j
    exact applyStep_cases _ _ _

/-- C9: the patched text does not depend on the descriptor's file path —
two descriptors with the same name but different paths produce identical
output, because no inserted line mentions the path. -/
theorem patch_independent_of_path (d1 d2 : FileDescriptor) (h : d1.name = d2.name)
    (refId buildId m : List Char) :
    patch d1 refId buildId m = patch d2 refId buildId m := by
  simp only [patch, h]

/-- C9 witness: changing `A/Foo.swift` to `B/Elsewhere.swift` leaves the
patched `mGood` unchanged. -/
theorem patch_independent_of_path_witness :
    patch fooDesc idA idB mGood =
      patch ⟨("Foo.swift").toList, ("B/Elsewhere.swift").toList⟩ idA idB mGood :=
  patch_independent_of_path fooDesc ⟨("Foo.swift").toList, ("B/Elsewhere.swift").toList⟩
    rfl idA idB mGood

/-- C10: a successful anchor search reports the leftmost match — every
earlier starting position fails to match — and the sub-step performs a
single splice right after that first match; later occurrences of the
pattern receive nothing. -/
theorem applyStep_first_match_single_insertion (pats : List Pat) (entry s : List Char) (e : Nat)
    (h : searchEnd pats s = some e) :
    ∃ d k, matchPats pats (s.drop d) = some k ∧ e = d + k ∧
      (∀ d2, d2 < d → matchPats pats (s.drop d2) = none) ∧
      applyStep pats entry s = s.take e ++ entry ++ s.drop e := by
  obtain ⟨d, k, _, hmk, he, hmin⟩ := searchEnd_spec pats s e h
  exact ⟨d, k, hmk, he, fun d2 hd2 => hmin d2 hd2, applyStep_of_found h⟩

/-- C10 witness: `mDupMarker` contains the build-file marker twice; the
search ends at offset 33, right after the first occurrence, and the single
splice happens there. -/
theorem applyStep_first_match_single_insertion_witness :
    ∃ d k, matchPats buildFilePats (mDupMarker.drop d) = some k ∧ 33 = d + k ∧
      (∀ d2, d2 < d → matchPats buildFilePats (mDupMarker.drop d2) = none) ∧
      applyStep buildFilePats (buildFileEntry fooDesc.name idA idB) mDupMarker =
        mDupMarker.take 33 ++ buildFileEntry fooDesc.name idA idB ++ mDupMarker.drop 33 :=
  applyStep_first_match_single_insertion buildFilePats
    (buildFileEntry fooDesc.name idA idB) mDupMarker 33 (by decide)

theorem patch_skip_stage0 (d : FileDescriptor) (refId buildId m : List Char)
    (h0 : searchEnd buildFilePats m = none)
    (h1 : (searchEnd fileRefPats (stepBuildFile d.name refId buildId m)).isSome = true)
    (h2 : (searchEnd viewsPats
      (stepFileRef d.name refId (stepBuildFile d.name refId buildId m))).isSome = true)
    (h3 : (searchEnd sourcesPats (stepGroup d.name refId
      (stepFileRef d.name refId (stepBuildFile d.name refId buildId m)))).isSome = true) :
    InsChain [fileRefEntry d.name refId, groupEntry d.name refId, sourcesEntry d.name buildId]
        m (patch d refId buildId m) ∧
      (patch d refId buildId m).length = m.length + ((fileRefEntry d.name refId).length +
        (groupEntry d.name refId).length + (sourcesEntry d.name buildId).length) := by
  obtain ⟨e2, he2⟩ := Option.isSome_iff_exists.mp h1
  obtain ⟨e3, he3⟩ := Option.isSome_iff_exists.mp h2
  obtain ⟨e4, he4⟩ := Option.isSome_iff_exists.mp h3
  have hid : stepBuildFile d.name refId buildId m = m := applyStep_of_not_found h0
  constructor
  · refine ⟨stepFileRef d.name refId (stepBuildFile d.name refId buildId m), ?_,
      stepGroup d.name refId (stepFileRef d.name refId (stepBuildFile d.name refId buildId m)),
      insertedAt_applyStep he3, patch d refId buildId m, insertedAt_applyStep he4, rfl⟩
    rw [hid] at he2 ⊢
    exact insertedAt_applyStep he2
  · have lp : (patch d refId buildId m).length =
        (stepGroup d.name refId (stepFileRef d.name refId
          (stepBuildFile d.name refId buildId m))).length +
          (sourcesEntry d.name buildId).length := applyStep_length_of_found he4
    have l3 : (stepGroup d.name refId (stepFileRef d.name refId
          (stepBuildFile d.name refId buildId m))).length =
        (stepFileRef d.name refId (stepBuildFile d.name refId buildId m)).length +
          (groupEntry d.name refId).length := applyStep_length_of_found he3
    have l2 : (stepFileRef d.name refId (stepBuildFile d.name refId buildId m)).length =
        (stepBuildFile d.name refId buildId m).length +
          (fileRefEntry d.name refId).length := applyStep_length_of_found he2
    have l1 : (stepBuildFile d.name refId buildId m).length = m.length := by rw [hid]
    omega

theorem patch_skip_stage1 (d : FileDescriptor) (refId buildId m : List Char)
    (h0 : (searchEnd buildFilePats m).isSome = true)
    (h1 : searchEnd fileRefPats (stepBuildFile d.name refId buildId m) = none)
    (h2 : (searchEnd viewsPats
      (stepFileRef d.name refId (stepBuildFile d.name refId buildId m))).isSome = true)
    (h3 : (searchEnd sourcesPats (stepGroup d.name refId
      (stepFileRef d.name refId (stepBuildFile d.name refId buildId m)))).isSome = true) :
    InsChain [buildFileEntry d.name refId buildId, groupEntry d.name refId,
        sourcesEntry d.name buildId] m (patch d refId buildId m) ∧
      (patch d refId buildId m).length = m.length + ((buildFileEntry d.name refId buildId).length +
        (groupEntry d.name refId).length + (sourcesEntry d.name buildId).length) := by
  obtain ⟨e1, he1⟩ := Option.isSome_iff_exists.mp h0
  obtain ⟨e3, he3⟩ := Option.isSome_iff_exists.mp h2
  obtain ⟨e4, he4⟩ := Option.isSome_iff_exists.mp h3
  have hid : stepFileRef d.name refId (stepBuildFile d.name refId buildId m) =
      stepBuildFile d.name refId buildId m := applyStep_of_not_found h1
  constructor
  · refine ⟨stepBuildFile d.name refId buildId m, insertedAt_applyStep he1,
      stepGroup d.name refId (stepFileRef d.name refId (stepBuildFile d.name refId buildId m)),
      ?_, patch d refId buildId m, insertedAt_applyStep he4, rfl⟩
    rw [hid] at he3 ⊢
    exact insertedAt_applyStep he3
  · have lp : (patch d refId buildId m).length =
        (stepGroup d.name refId (stepFileRef d.name refId
          (stepBuildFile d.name refId buildId m))).length +
          (sourcesEntry d.name buildId).length := applyStep_length_of_found he4
    have l3 : (stepGroup d.name refId (stepFileRef d.name refId
          (stepBuildFile d.name refId buildId m))).length =
        (stepFileRef d.name refId (stepBuildFile d.name refId buildId m)).length +
          (groupEntry d.name refId).length := applyStep_length_of_found he3
    have l2 : (stepFileRef d.name refId (stepBuildFile d.name refId buildId m)).length =
        (stepBuildFile d.name refId buildId m).length := by rw [hid]
    have l1 : (stepBuildFile d.name refId buildId m).length =
        m.length + (buildFileEntry d.name refId buildId).length :=
      applyStep_length_of_found he1
    omega

theorem patch_skip_stage2 (d : FileDescriptor) (refId buildId m : List Char)
    (h0 : (searchEnd buildFilePats m).isSome = true)
    (h1 : (searchEnd fileRefPats (stepBuildFile d.name refId buildId m)).isSome = true)
    (h2 : searchEnd viewsPats
      (stepFileRef d.name refId (stepBuildFile d.name refId buildId m)) = none)
    (h3 : (searchEnd sourcesPats (stepGroup d.name refId
      (stepFileRef d.name refId (stepBuildFile d.name refId buildId m)))).isSome = true) :
    InsChain [buildFileEntry d.name refId buildId, fileRefEntry d.name refId,
        sourcesEntry d.name buildId] m (patch d refId buildId m) ∧
      (patch d refId buildId m).length = m.length + ((buildFileEntry d.name refId buildId).length +
        (fileRefEntry d.name refId).length + (sourcesEntry d.name buildId).length) := by
  obtain ⟨e1, he1⟩ := Option.isSome_iff_exists.mp h0
  obtain ⟨e2, he2⟩ := Option.isSome_iff_exists.mp h1
  obtain ⟨e4, he4⟩ := Option.isSome_iff_exists.mp h3
  have hid : stepGroup d.name refId (stepFileRef d.name refId
        (stepBuildFile d.name refId buildId m)) =
      stepFileRef d.name refId (stepBuildFile d.name refId buildId m) :=
    applyStep_of_not_found h2
  constructor
  · refine ⟨stepBuildFile d.name refId buildId m, insertedAt_applyStep he1,
      stepFileRef d.name refId (stepBuildFile d.name refId buildId m),
      insertedAt_applyStep he2, patch d refId buildId m, ?_, rfl⟩
    show InsertedAt _ (stepSources d.name buildId (stepGroup d.name refId
      (stepFileRef d.name refId (stepBuildFile d.name refId buildId m)))) _
    rw [hid] at he4 ⊢
    exact insertedAt_applyStep he4
  · have lp : (patch d refId buildId m).length =
        (stepGroup d.name refId (stepFileRef d.name refId
          (stepBuildFile d.name refId buildId m))).length +
          (sourcesEntry d.name buildId).length := applyStep_length_of_found he4
    have l3 : (stepGroup d.name refId (stepFileRef d.name refId
          (stepBuildFile d.name refId buildId m))).length =
        (stepFileRef d.name refId (stepBuildFile d.name refId buildId m)).length := by rw [hid]
    have l2 : (stepFileRef d.name refId (stepBuildFile d.name refId buildId m)).length =
        (stepBuildFile d.name refId buildId m).length +
          (fileRefEntry d.name refId).length := applyStep_length_of_found he2
    have l1 : (stepBuildFile d.name refId buildId m).length =
        m.length + (buildFileEntry d.name refId buildId).length :=
      applyStep_length_of_found he1
    omega

theorem patch_skip_stage3 (d : FileDescriptor) (refId buildId m : List Char)
    (h0 : (searchEnd buildFilePats m).isSome = true)
    (h1 : (searchEnd fileRefPats (stepBuildFile d.name refId buildId m)).isSome = true)
    (h2 : (searchEnd viewsPats
      (stepFileRef d.name refId (stepBuildFile d.name refId buildId m))).isSome = true)
    (h3 : searchEnd sourcesPats (stepGroup d.name refId
      (stepFileRef d.name refId (stepBuildFile d.name refId buildId m))) = none) :
    InsChain [buildFileEntry d.name refId buildId, fileRefEntry d.name refId,
        groupEntry d.name refId] m (patch d refId buildId m) ∧
      (patch d refId buildId m).length = m.length + ((buildFileEntry d.name refId buildId).length +
        (fileRefEntry d.name refId).length + (groupEntry d.name refId).length) := by
  obtain ⟨e1, he1⟩ := Option.isSome_iff_exists.mp h0
  obtain ⟨e2, he2⟩ := Option.isSome_iff_exists.mp h1
  obtain ⟨e3, he3⟩ := Option.isSome_iff_exists.mp h2
  have hid : patch d refId buildId m = stepGroup d.name refId
      (stepFileRef d.name refId (stepBuildFile d.name refId buildId m)) :=
    applyStep_of_not_found h3
  constructor
  · exact ⟨stepBuildFile d.name refId buildId m, insertedAt_applyStep he1,
      stepFileRef d.name refId (stepBuildFile d.name refId buildId m),
      insertedAt_applyStep he2,
      stepGroup d.name refId (stepFileRef d.name refId (stepBuildFile d.name refId buildId m)),
      insertedAt_applyStep he3, hid⟩
  · have lp : (patch d refId buildId m).length =
        (stepGroup d.name refId (stepFileRef d.name refId
          (stepBuildFile d.name refId buildId m))).length := by rw [hid]
    have l3 : (stepGroup d.name refId (stepFileRef d.name refId
          (stepBuildFile d.name refId buildId m))).length =
        (stepFileRef d.name refId (stepBuildFile d.name refId buildId m)).length +
          (groupEntry d.name refId).length := applyStep_length_of_found he3
    have l2 : (stepFileRef d.name refId (stepBuildFile d.name refId buildId m)).length =
        (stepBuildFile d.name refId buildId m).length +
          (fileRefEntry d.name refId).length := applyStep_length_of_found he2
    have l1 : (stepBuildFile d.name refId buildId m).length =
        m.length + (buildFileEntry d.name refId buildId).length :=
      applyStep_length_of_found he1
    omega

/-- C2 counterexample: in `mOverlapNoRef` exactly one anchor (the
file-reference marker) is absent, yet `patch` does not perform the other
three insertions: the build-file entry destroys the group anchor, so only
two lines are inserted and the group section is also left unmodified. -/
theorem patch_one_anchor_absent_not_three_insertions :
    ((searchEnd buildFilePats mOverlapNoRef).isSome = true ∧
      searchEnd fileRefPats mOverlapNoRef = none ∧
      (searchEnd viewsPats mOverlapNoRef).isSome = true ∧
      (searchEnd sourcesPats mOverlapNoRef).isSome = true) ∧
    (patch fooDesc idA idB mOverlapNoRef).length ≠ mOverlapNoRef.length +
      ((buildFileEntry fooDesc.name idA idB).length + (groupEntry fooDesc.name idA).length +
        (sourcesEntry fooDesc.name idB).length) ∧
    (patch fooDesc idA idB mOverlapNoRef).length = mOverlapNoRef.length +
      ((buildFileEntry fooDesc.name idA idB).length +
        (sourcesEntry fooDesc.name idB).length) := by
  decide

/-- C2 (amended): when the anchor search of exactly one sub-step `j` fails
on the text that sub-step sees, and the other three sub-steps each find
their anchor on the text as mutated so far, `patch` still succeeds: it is
the chain of the three other pure insertions, the total length grows by
exactly those three entries, and sub-step `j` leaves its input text
entirely unmodified (a silent per-section no-op). -/
theorem patch_three_insertions_of_one_stage_missing (d : FileDescriptor)
    (refId buildId m : List Char) (j : Nat) (hj : j < 4)
    (hmiss : searchEnd (stagePats j) (stageText d refId buildId m j) = none)
    (hfound : ∀ k, k < 4 → k ≠ j →
      (searchEnd (stagePats k) (stageText d refId buildId m k)).isSome = true) :
    InsChain (List.eraseIdx [stageEntry d refId buildId 0, stageEntry d refId buildId 1,
        stageEntry d refId buildId 2, stageEntry d refId buildId 3] j) m
      (patch d refId buildId m) ∧
    (patch d refId buildId m).length = m.length +
      ((List.eraseIdx [stageEntry d refId buildId 0, stageEntry d refId buildId 1,
        stageEntry d refId buildId 2, stageEntry d refId buildId 3] j).map List.length).sum ∧
    applyStep (stagePats j) (stageEntry d refId buildId j) (stageText d refId buildId m j) =
      stageText d refId buildId m j := by
  interval_cases j
  · obtain ⟨hc, hl⟩ := patch_skip_stage0 d refId buildId m hmiss
      (hfound 1 (by omega) (by omega)) (hfound 2 (by omega) (by omega))
      (hfound 3 (by omega) (by omega))
    refine ⟨hc, ?_, applyStep_of_not_found hmiss⟩
    simp only [List.eraseIdx, stageEntry, List.map_cons, List.map_nil, List.sum_cons,
      List.sum_nil]
    omega
  · obtain ⟨hc, hl⟩ := patch_skip_stage1 d refId buildId m
      (hfound 0 (by omega) (by omega)) hmiss (hfound 2 (by omega) (by omega))
      (hfound 3 (by omega) (by omega))
    refine ⟨hc, ?_, applyStep_of_not_found hmiss⟩
    simp only [List.eraseIdx, stageEntry, List.map_cons, List.map_nil, List.sum_cons,
      List.sum_nil]
    omega
  · obtain ⟨hc, hl⟩ := patch_skip_stage2 d refId buildId m
      (hfound 0 (by omega) (by omega)) (hfound 1 (by omega) (by omega)) hmiss
      (hfound 3 (by omega) (by omega))
    refine ⟨hc, ?_, applyStep_of_not_found hmiss⟩
    simp only [List.eraseIdx, stageEntry, List.map_cons, List.map_nil, List.sum_cons,
      List.sum_nil]
    omega
  · obtain ⟨hc, hl⟩ := patch_skip_stage3 d refId buildId m
      (hfound 0 (by omega) (by omega)) (hfound 1 (by omega) (by omega))
      (hfound 2 (by omega) (by omega)) hmiss
    refine ⟨hc, ?_, applyStep_of_not_found hmiss⟩
    simp only [List.eraseIdx, stageEntry, List.map_cons, List.map_nil, List.sum_cons,
      List.sum_nil]
    omega

/-- C2 witness: `mNoViews` misses exactly the group anchor (sub-step 2);
patching yields the chain of the other three insertions. -/
theorem patch_three_insertions_of_one_stage_missing_witness :
    InsChain (List.eraseIdx [stageEntry fooDesc idA idB 0, stageEntry fooDesc idA idB 1,
        stageEntry fooDesc idA idB 2, stageEntry fooDesc idA idB 3] 2) mNoViews
      (patch fooDesc idA idB mNoViews) ∧
    (patch fooDesc idA idB mNoViews).length = mNoViews.length +
      ((List.eraseIdx [stageEntry fooDesc idA idB 0, stageEntry fooDesc idA idB 1,
        stageEntry fooDesc idA idB 2, stageEntry fooDesc idA idB 3] 2).map List.length).sum ∧
    applyStep (stagePats 2) (stageEntry fooDesc idA idB 2)
        (stageText fooDesc idA idB mNoViews 2) = stageText fooDesc idA idB mNoViews 2 :=
  patch_three_insertions_of_one_stage_missing fooDesc idA idB mNoViews 2 (by omega)
    (by decide) (by decide)

/-- C3: `patch` is not idempotent.  When every sub-step finds its anchor
in both applications (the anchors are re-found because the markers are
still present), patching twice with the same identifiers is a chain of
eight pure insertions — the same four entries inserted a second time, two
duplicate records per section — the length grows by twice the four entry
lengths, and the doubly patched text differs from the singly patched one. -/
theorem patch_twice_duplicates (d : FileDescriptor) (refId buildId m : List Char)
    (h1 : (searchEnd buildFilePats m).isSome = true)
    (h2 : (searchEnd fileRefPats (stepBuildFile d.name refId buildId m)).isSome = true)
    (h3 : (searchEnd viewsPats
      (stepFileRef d.name refId (stepBuildFile d.name refId buildId m))).isSome = true)
    (h4 : (searchEnd sourcesPats (stepGroup d.name refId
      (stepFileRef d.name refId (stepBuildFile d.name refId buildId m)))).isSome = true)
    (h5 : (searchEnd buildFilePats (patch d refId buildId m)).isSome = true)
    (h6 : (searchEnd fileRefPats
      (stepBuildFile d.name refId buildId (patch d refId buildId m))).isSome = true)
    (h7 : (searchEnd viewsPats (stepFileRef d.name refId
      (stepBuildFile d.name refId buildId (patch d refId buildId m)))).isSome = true)
    (h8 : (searchEnd sourcesPats (stepGroup d.name refId (stepFileRef d.name refId
      (stepBuildFile d.name refId buildId (patch d refId buildId m))))).isSome = true) :
    InsChain ([buildFileEntry d.name refId buildId, fileRefEntry d.name refId,
        groupEntry d.name refId, sourcesEntry d.name buildId] ++
      [buildFileEntry d.name refId buildId, fileRefEntry d.name refId,
        groupEntry d.name refId, sourcesEntry d.name buildId]) m
      (patch d refId buildId (patch d refId buildId m)) ∧
    (patch d refId buildId (patch d refId buildId m)).length = m.length +
      2 * ((buildFileEntry d.name refId buildId).length + (fileRefEntry d.name refId).length +
        (groupEntry d.name refId).length + (sourcesEntry d.name buildId).length) ∧
    patch d refId buildId (patch d refId buildId m) ≠ patch d refId buildId m := by
  obtain ⟨c1, l1⟩ := patch_insert_all d refId buildId m h1 h2 h3 h4
  obtain ⟨c2, l2⟩ := patch_insert_all d refId buildId (patch d refId buildId m) h5 h6 h7 h8
  refine ⟨insChain_append c1 c2, by omega, ?_⟩
  intro heq
  have hL := congrArg List.length heq
  have hpos := buildFileEntry_length_pos d.name refId buildId
  omega

/-- C3 witness: on `mGood` the anchors are found at all eight stages of
the two applications, so double patching duplicates every entry. -/
theorem patch_twice_duplicates_witness :
    InsChain ([buildFileEntry fooDesc.name idA idB, fileRefEntry fooDesc.name idA,
        groupEntry fooDesc.name idA, sourcesEntry fooDesc.name idB] ++
      [buildFileEntry fooDesc.name idA idB, fileRefEntry fooDesc.name idA,
        groupEntry fooDesc.name idA, sourcesEntry fooDesc.name idB]) mGood
      (patch fooDesc idA idB (patch fooDesc idA idB mGood)) ∧
    (patch fooDesc idA idB (patch fooDesc idA idB mGood)).length = mGood.length +
      2 * ((buildFileEntry fooDesc.name idA idB).length + (fileRefEntry fooDesc.name idA).length +
        (groupEntry fooDesc.name idA).length + (sourcesEntry fooDesc.name idB).length) ∧
    patch fooDesc idA idB (patch fooDesc idA idB mGood) ≠ patch fooDesc idA idB mGood :=
  patch_twice_duplicates fooDesc idA idB mGood (by decide) (by decide) (by decide) (by decide)
    (by decide) (by decide) (by decide) (by decide)

theorem toUpper_mem_upperHexDigits : ∀ c ∈ lowerHexDigits, c.toUpper ∈ upperHexDigits := by
  decide

/-- C5: on any textual form of a version-4 UUID (32 lowercase hex digits
separated by hyphens), the identifier generator returns exactly 24
characters, each an uppercase hexadecimal digit; the function is total, so
the operation cannot fail. -/
theorem generateUuid_length_upper_hex (u : List Char) (h : IsUuidRepr u) :
    (generateUuid u).length = 24 ∧ ∀ c ∈ generateUuid u, c ∈ upperHexDigits := by
  obtain ⟨hlen, hmem⟩ := h
  constructor
  · simp only [generateUuid, List.length_map, List.length_take, hlen]
    decide
  · intro c hc
    simp only [generateUuid, List.mem_map] at hc
    obtain ⟨c2, hc2, rfl⟩ := hc
    have hc3 : c2 ∈ u.filter (fun c => c ≠ '-') := List.take_subset 24 _ hc2
    have hc4 : c2 ∈ u := List.mem_of_mem_filter hc3
    have hne : c2 ≠ '-' := by
      have := List.of_mem_filter hc3
      simpa using this
    rcases hmem c2 hc4 with h | h
    · exact absurd h hne
    · exact toUpper_mem_upperHexDigits c2 h

/-- C5 witness: a concrete UUID string yields a 24-character uppercase-hex
identifier. -/
theorem generateUuid_length_upper_hex_witness :
    (generateUuid uuidSample).length = 24 ∧ ∀ c ∈ generateUuid uuidSample, c ∈ upperHexDigits :=
  generateUuid_length_upper_hex uuidSample ⟨by decide, by decide⟩

/-- C8 counterexample: the four sub-steps do not commute on every
manifest.  On `mOrderSensitive` the build-file entry inserted by sub-step
0 introduces a closing brace inside the Views group's span, so running
sub-step 2 before or after sub-step 0 yields different texts. -/
theorem order_of_steps_observable :
    applyOrder fooDesc idA idB [0, 1, 2, 3] mOrderSensitive ≠
      applyOrder fooDesc idA idB [2, 0, 1, 3] mOrderSensitive := by
  decide

/-- C8 (amended): the order of the four sub-steps is observable in
general (see the counterexample), but on a manifest whose four sections
are disjoint and therefore untouched by each other's insertions — such as
the well-formed `mGood` — every one of the 24 permutations of the four
sub-steps (`allOrders` lists each exactly once) produces the same patched
text as the implemented order, which is `patch` itself. -/
theorem order_irrelevant_on_disjoint_manifest :
    allOrders.length = 24 ∧ allOrders.Nodup ∧
      (allOrders.all (fun o => o.isPerm ([0, 1, 2, 3] : List Nat))) = true ∧
      applyOrder fooDesc idA idB [0, 1, 2, 3] mGood = patch fooDesc idA idB mGood ∧
      (allOrders.all (fun p => applyOrder fooDesc idA idB p mGood ==
        applyOrder fooDesc idA idB [0, 1, 2, 3] mGood)) = true := by
  refine ⟨by decide, by decide, by decide, rfl, by decide⟩
